import Mathlib

/-!
Verification of the shadow-synthesis core of the `lifted` repository.

The development shallowly embeds the core modules:

* `src/core/color.ts` — color parsing and shadow-color derivation; all
  numbers on this path are results of `parseFloat` / `parseInt` and field
  arithmetic on them, so the embedding uses `ℚ` and stays executable.
* `src/core/calculations.ts` — light-source normalisation, mouse-angle
  resolution and the powers-of-two layer synthesis; these involve
  `cos` / `sin` / `atan2`, so the embedding uses `ℝ`.
* `src/core/css-generator.ts` — the `generateShadow` orchestrator,
  color-priority resolution and serialisation of layers.

JavaScript numbers are modelled as exact rationals/reals (the usual
idealisation of IEEE doubles: every double is a rational, and exact
arithmetic replaces rounded arithmetic).  `undefined` / `null` arguments
and optional record fields are modelled with `Option`.

The repository contains two inconsistent revisions of the layer synthesis:
`src/core/calculations.ts` defines a three-parameter
`calculateShadowLayers (elevation, lightAngle, intensity)`, while
`src/core/css-generator.ts` invokes it with five arguments
`(elevation, lightAngle, intensity, scale, isAmbient)`.  Both are embedded
below: `calculateShadowLayers` follows the source file verbatim, and
`synthesize` models the five-parameter revision from the spec (see its
doc comment).
-/

namespace Lifted

/-! ## Color subsystem (`src/core/color.ts`), over `ℚ` -/

/-- `{h, s, l}` record produced by `parseColor` and friends. -/
structure HSL where
  h : ℚ
  s : ℚ
  l : ℚ
deriving DecidableEq, Repr

/-- `{r, g, b}` record consumed by `rgbToHSL`. -/
structure RGB where
  r : ℚ
  g : ℚ
  b : ℚ
deriving DecidableEq, Repr

/-- JavaScript `\s` character class (ASCII whitespace forms). -/
def isJsSpace (c : Char) : Bool :=
  c == ' ' || c == '\t' || c == '\n' || c == '\r' || c == '\x0b' || c == '\x0c'

/-- Character class `[\d.]` used by the numeric capture groups. -/
def isDigitDot (c : Char) : Bool :=
  c.isDigit || c == '.'

/-- Character class `[0-9a-f]` under the `/i` flag. -/
def isHexDigitCI (c : Char) : Bool :=
  c.isDigit || ('a' ≤ c && c ≤ 'f') || ('A' ≤ c && c ≤ 'F')

/-- One token of the tiny regular-expression language needed for the three
patterns in `parseColor`: a literal character (matched case-insensitively,
all three source regexes carry the `/i` flag), a character class with a
repetition range and an optional capture, or the `$` end anchor.  `hi = none`
means an unbounded repetition (`*` / `+`). -/
inductive RTok where
  | lit (c : Char)
  | cls (p : Char → Bool) (lo : ℕ) (hi : Option ℕ) (capture : Bool)
  | stop

/-- Length of the longest prefix of `s` whose characters satisfy `p`,
capped at `bound`. -/
def runLen (p : Char → Bool) : List Char → ℕ → ℕ
  | [], _ => 0
  | _ :: _, 0 => 0
  | a :: as, b + 1 => if p a then runLen p as b + 1 else 0

/-- Backtracking matcher for a token sequence, anchored at the start of the
input, returning the list of captured groups on success.  Greedy repetition
with backtracking reproduces the JavaScript regex semantics (for example
`hsl(123)` matches `^hsl\(([\d.]+)\s*,?\s*([\d.]+)%?\s*,?\s*([\d.]+)%?\s*\)`
by splitting the digit run).  `fuel` only bounds the recursion depth; each
recursive call consumes one token, so `fuel = toks.length + 1` (supplied by
`rMatch`) never runs out. -/
def matchToks (fuel : ℕ) (toks : List RTok) (s : List Char) :
    Option (List (List Char)) :=
  match fuel with
  | 0 => none
  | fuel + 1 =>
    match toks with
    | [] => some []
    | .stop :: rest => if s.isEmpty then matchToks fuel rest s else none
    | .lit c :: rest =>
      match s with
      | [] => none
      | a :: as => if a.toLower == c.toLower then matchToks fuel rest as else none
    | .cls p lo hi cap :: rest =>
      let m := runLen p s (match hi with | none => s.length | some h2 => min h2 s.length)
      (List.range (m + 1 - lo)).findSome? (fun j =>
        let k := m - j
        match matchToks fuel rest (s.drop k) with
        | some caps => some (if cap then s.take k :: caps else caps)
        | none => none)

/-- Run a token sequence against a string, anchored at position 0 (all three
source regexes begin with `^`). -/
def rMatch (toks : List RTok) (s : String) : Option (List (List Char)) :=
  matchToks (toks.length + 1) toks s.data

/-- Optional whitespace, `\s*`. -/
def wsStar : RTok := .cls isJsSpace 0 none false

/-- Optional comma, `,?`. -/
def commaOpt : RTok := .cls (fun c => c == ',') 0 (some 1) false

/-- Optional percent sign, `%?`. -/
def pctOpt : RTok := .cls (fun c => c == '%') 0 (some 1) false

/-- Captured numeric component, `([\d.]+)`. -/
def numCap : RTok := .cls isDigitDot 1 none true

/-- `/^#([0-9a-f]{3,8})$/i` -/
def hexPattern : List RTok :=
  [.lit '#', .cls isHexDigitCI 3 (some 8) true, .stop]

/-- `/^hsl\(\s*([\d.]+)\s*,?\s*([\d.]+)%?\s*,?\s*([\d.]+)%?\s*\)/i` -/
def hslPattern : List RTok :=
  [.lit 'h', .lit 's', .lit 'l', .lit '(',
   wsStar, numCap, wsStar, commaOpt, wsStar,
   numCap, pctOpt, wsStar, commaOpt, wsStar,
   numCap, pctOpt, wsStar, .lit ')']

/-- `/^rgb\(\s*([\d.]+)\s*,?\s*([\d.]+)\s*,?\s*([\d.]+)\s*\)/i` -/
def rgbPattern : List RTok :=
  [.lit 'r', .lit 'g', .lit 'b', .lit '(',
   wsStar, numCap, wsStar, commaOpt, wsStar,
   numCap, wsStar, commaOpt, wsStar,
   numCap, wsStar, .lit ')']

/-- Decimal value of a digit string. -/
def digitsVal (ds : List Char) : ℕ :=
  ds.foldl (fun n c => n * 10 + (c.toNat - 48)) 0

/-- `parseFloat` on a captured `[\d.]+` match: an optional integer part, an
optional `.` followed by an optional fraction part; parsing stops at any
further `.`, as `parseFloat("1.2.3") = 1.2` does.  A match with no digits
before a second dot (such as `"."`) gives `NaN` in JavaScript; the rational
idealisation returns `0` there, a branch no well-formed color reaches. -/
def parseFloatQ (cs : List Char) : ℚ :=
  let ip := cs.takeWhile Char.isDigit
  let rest := cs.drop ip.length
  match rest with
  | c :: rest2 =>
    if c == '.' then
      let fp := rest2.takeWhile Char.isDigit
      (digitsVal ip : ℚ) + (digitsVal fp : ℚ) / (10 : ℚ) ^ fp.length
    else (digitsVal ip : ℚ)
  | [] => (digitsVal ip : ℚ)

/-- Value of a single hexadecimal digit (`parseInt(c, 16)` building block). -/
def hexVal (c : Char) : ℕ :=
  if c.isDigit then c.toNat - 48
  else if 'a' ≤ c && c ≤ 'f' then c.toNat - 97 + 10
  else if 'A' ≤ c && c ≤ 'F' then c.toNat - 65 + 10
  else 0

/-- `parseInt(s, 16)` on a hex-digit string. -/
def parseIntHex (cs : List Char) : ℕ :=
  cs.foldl (fun n c => n * 16 + hexVal c) 0

/-- `Math.round`: round half towards positive infinity. -/
def jsRound (q : ℚ) : ℚ :=
  ((⌊q + 1/2⌋ : ℤ) : ℚ)

/-- `Math.max` on rationals, written with an explicit comparison so that it
evaluates by kernel reduction. -/
def qMax (a b : ℚ) : ℚ :=
  if a ≤ b then b else a

/-- `Math.min` on rationals, written with an explicit comparison so that it
evaluates by kernel reduction. -/
def qMin (a b : ℚ) : ℚ :=
  if b ≤ a then b else a

/-- `rgbToHSL` from `src/core/color.ts`: normalise to `[0,1]`, compute
lightness from max/min, branch on saturation, and resolve hue by which
channel attains the maximum (the `switch` tries `r`, then `g`, then `b`). -/
def rgbToHSL (c : RGB) : HSL :=
  let r := c.r / 255
  let g := c.g / 255
  let b := c.b / 255
  let maxC := qMax r (qMax g b)
  let minC := qMin r (qMin g b)
  let l := (maxC + minC) / 2
  if maxC = minC then
    ⟨jsRound 0, jsRound 0, jsRound (l * 100)⟩
  else
    let d := maxC - minC
    let s := if l > 1/2 then d / (2 - maxC - minC) else d / (maxC + minC)
    let h :=
      if maxC = r then ((g - b) / d + (if g < b then 6 else 0)) / 6
      else if maxC = g then ((b - r) / d + 2) / 6
      else ((r - g) / d + 4) / 6
    ⟨jsRound (h * 360), jsRound (s * 100), jsRound (l * 100)⟩

/-- `hexToHSL` from `src/core/color.ts`: `#rgb` duplicates each digit,
strings of length ≥ 7 use the first six digits, and any other length leaves
`r = g = b = 0` (the declared initial values). -/
def hexToHSL (s : String) : HSL :=
  let cs := s.data
  if cs.length = 4 then
    rgbToHSL ⟨(17 * hexVal (cs.getD 1 '0') : ℕ),
              (17 * hexVal (cs.getD 2 '0') : ℕ),
              (17 * hexVal (cs.getD 3 '0') : ℕ)⟩
  else if 7 ≤ cs.length then
    rgbToHSL ⟨(parseIntHex ((cs.drop 1).take 2) : ℕ),
              (parseIntHex ((cs.drop 3).take 2) : ℕ),
              (parseIntHex ((cs.drop 5).take 2) : ℕ)⟩
  else rgbToHSL ⟨0, 0, 0⟩

/-- `parseColor` from `src/core/color.ts`: try the hex pattern (delegating
to `hexToHSL` on the whole string), then `hsl(...)`, then `rgb(...)`;
return `none` when no pattern matches. -/
def parseColor (s : String) : Option HSL :=
  match rMatch hexPattern s with
  | some _ => some (hexToHSL s)
  | none =>
    match rMatch hslPattern s with
    | some [a, b, c] => some ⟨parseFloatQ a, parseFloatQ b, parseFloatQ c⟩
    | _ =>
      match rMatch rgbPattern s with
      | some [a, b, c] => some (rgbToHSL ⟨parseFloatQ a, parseFloatQ b, parseFloatQ c⟩)
      | _ => none

/-- A CSS color value flowing through the generator.  The source represents
all of these as strings; the embedding keeps the strings built by template
literals structured, because no claim depends on their exact text:

* `raw s` — a caller-supplied color string (options fields);
* `hsl h s l` — the template `hsl(${h} ${s}% ${l}%)`;
* `hslA h s l a` — the literal fallbacks `hsl(0 0% 100% / 0.1)` etc. -/
inductive CssColor where
  | raw (s : String)
  | hsl (h s l : ℚ)
  | hslA (h s l a : ℚ)
deriving DecidableEq, Repr

/-- `parseColor` lifted to structured color values.  For `raw` this is the
string parser above.  For `hsl h s l` the source would format the string
`hsl(h s% l%)` and re-parse it; every component produced by
`calculateShadowColor` is a non-negative terminating decimal, on which the
`hsl` regex recovers exactly `(h, s, l)`, so the embedding returns the
components directly.  For `hslA` the source string carries a ` / a` alpha
suffix which the `hsl` regex (expecting `%?\s*\)` after the third component)
rejects, so parsing fails. -/
def parseCssColor : CssColor → Option HSL
  | .raw s => parseColor s
  | .hsl h s l => some ⟨h, s, l⟩
  | .hslA _ _ _ _ => none

/-- `calculateShadowColor` from `src/core/color.ts`: parse the background;
on failure fall back to translucent white (dark mode) or the fixed dark
neutral; otherwise lighten in dark mode (`s - 20` floored at 0, `l + 30`
capped at 100) and darken/desaturate in light mode (`s * 0.6` floored at 0,
`l * 0.5` floored at 10). -/
def calculateShadowColor (background : String) (isDarkMode : Bool) : CssColor :=
  match parseColor background with
  | none => if isDarkMode then .hslA 0 0 100 0.1 else .hsl 220 3 15
  | some c =>
    if isDarkMode then
      .hsl c.h (qMax 0 (c.s - 20)) (qMin 100 (c.l + 30))
    else
      .hsl c.h (qMax 0 (c.s * 0.6)) (qMax 10 (c.l * 0.5))

/-- The color attached to one layer: the template
`hsl(${h} ${s}% ${l}% / ${opacity})` of `generateLayerColor`, kept
structured.  The opacity channel is a real number because layer opacities
come from the synthesizer. -/
structure LayerColor where
  h : ℚ
  s : ℚ
  l : ℚ
  a : ℝ

/-- `generateLayerColor` from `src/core/color.ts`: re-parse the base color
and attach the layer's own opacity; unparseable bases fall back to the dark
neutral with the given opacity. -/
def generateLayerColor (baseColor : CssColor) (opacity : ℝ) : LayerColor :=
  match parseCssColor baseColor with
  | none => ⟨220, 3, 15, opacity⟩
  | some c => ⟨c.h, c.s, c.l, opacity⟩

/-- `isLightColor` from `src/core/color.ts`. -/
def isLightColor (color : String) : Bool :=
  match parseColor color with
  | some c => decide (c.l > 50)
  | none => true

/-! ## Light model (`src/core/calculations.ts`), over `ℝ` -/

/- Comparisons on `ℝ` are classical; the remaining definitions model
transcendental arithmetic and are necessarily noncomputable. -/
noncomputable section

open Classical Real

/-- `MAX_LAYERS` constant. -/
def MAX_LAYERS : ℕ := 5

/-- `BASE_OPACITY` constant. -/
def BASE_OPACITY : ℝ := 0.075

/-- `DEFAULT_LIGHT_ANGLE` constant. -/
def DEFAULT_LIGHT_ANGLE : ℝ := -45

/-- `DEFAULT_MAX_MOUSE_ANGLE` constant. -/
def DEFAULT_MAX_MOUSE_ANGLE : ℝ := 30

/-- `Position {x, y}` from `src/core/types.ts`. -/
structure Position where
  x : ℝ
  y : ℝ

/-- `Bounds {x, y, width, height}` from `src/core/types.ts`. -/
structure Bounds where
  x : ℝ
  y : ℝ
  width : ℝ
  height : ℝ

/-- Modelled from the spec: the `LightSource` tagged union.  The `static`,
`mouse` and `custom` variants follow the `types.ts` revision present in the
repository (optional `mouse` fields become `Option`).  That revision lacks
the `ambient` variant, yet `generateShadow` in `src/core/css-generator.ts`
tests `lightSource.type === 'ambient'`; the variant is taken from the
spec's union `static{angle} | mouse{...} | custom{angle} | ambient{}`. -/
inductive LightSource where
  | static (angle : ℝ)
  | mouse (smoothing maxAngle fallbackAngle : Option ℝ)
  | custom (angle : ℝ)
  | ambient

/-- Modelled from the spec: the `LightSourceProp` shorthand.  A bare number,
the `'mouse'` marker and a full record follow the `types.ts` revision in the
repository; the `'ambient'` marker is present only in the spec (and in the
README's prop table), not in that types revision. -/
inductive LightSourceProp where
  | angle (a : ℝ)
  | mouseMarker
  | ambientMarker
  | full (s : LightSource)

/-- `normalizeLightSource` from `src/core/calculations.ts`, with one branch
modelled from the spec: `undefined` and bare numbers become `static`, the
`'mouse'` marker expands to the default mouse configuration, and a full
record is returned unchanged.  The source revision has no case for the
`'ambient'` marker (its `LightSourceProp` type lacks it); the spec's
normalisation table maps the ambient marker to `ambient{}`, which is the
branch used here.  No claim depends on that branch. -/
def normalizeLightSource : Option LightSourceProp → LightSource
  | none => .static DEFAULT_LIGHT_ANGLE
  | some (.angle a) => .static a
  | some .mouseMarker => .mouse (some 0.1) (some DEFAULT_MAX_MOUSE_ANGLE) (some DEFAULT_LIGHT_ANGLE)
  | some .ambientMarker => .ambient
  | some (.full s) => s

/-- `Math.atan2 y x`: the angle of the vector `(x, y)`, in `(-π, π]`,
written as the standard piecewise extension of `arctan` (signed zeros of
IEEE arithmetic are not modelled). -/
def atan2 (y x : ℝ) : ℝ :=
  if 0 < x then arctan (y / x)
  else if x < 0 then
    (if 0 ≤ y then arctan (y / x) + π else arctan (y / x) - π)
  else
    (if 0 < y then π / 2 else if y < 0 then -(π / 2) else 0)

/-- Closed form of the loop `while (angleDiff > 180) angleDiff -= 360`:
the loop subtracts `360` exactly `max 0 ⌈(x - 180) / 360⌉` times, the least
number of steps after which the value is `≤ 180`. -/
def wrapDown (x : ℝ) : ℝ :=
  x - 360 * ((max 0 ⌈(x - 180) / 360⌉ : ℤ) : ℝ)

/-- Closed form of the loop `while (angleDiff < -180) angleDiff += 360`:
the loop adds `360` exactly `max 0 ⌈(-180 - x) / 360⌉` times, the least
number of steps after which the value is `≥ -180`. -/
def wrapUp (x : ℝ) : ℝ :=
  x + 360 * ((max 0 ⌈(-180 - x) / 360⌉ : ℤ) : ℝ)

/-- `calculateLightAngle` from `src/core/calculations.ts`: `static` and
`custom` return their angle; `mouse` falls back when either geometry input
is missing and otherwise points the shadow away from the pointer, wrapping
the difference from the fallback into `(-180, 180]` and clamping it to
`[-maxAngle, maxAngle]`; the `switch` default (which the `ambient` variant
reaches) returns `DEFAULT_LIGHT_ANGLE`. -/
def calculateLightAngle (lightSource : LightSource)
    (elementBounds : Option Bounds) (mousePosition : Option Position) : ℝ :=
  match lightSource with
  | .static a => a
  | .custom a => a
  | .mouse _ mx fb =>
    match mousePosition, elementBounds with
    | some p, some b =>
      let elementCenterX := b.x + b.width / 2
      let elementCenterY := b.y + b.height / 2
      let deltaX := p.x - elementCenterX
      let deltaY := p.y - elementCenterY
      let angleDeg := atan2 deltaY deltaX * (180 / π) + 180
      let maxAngle := mx.getD DEFAULT_MAX_MOUSE_ANGLE
      let fallback := fb.getD DEFAULT_LIGHT_ANGLE
      let angleDiff := wrapUp (wrapDown (angleDeg - fallback))
      fallback + max (-maxAngle) (min maxAngle angleDiff)
    | _, _ => fb.getD DEFAULT_LIGHT_ANGLE
  | .ambient => DEFAULT_LIGHT_ANGLE

/-- `ratioX` of `angleToOffsetRatios`: `cos` of the angle in radians. -/
def ratioXOf (angleDeg : ℝ) : ℝ :=
  cos (angleDeg * (π / 180))

/-- `ratioY` of `angleToOffsetRatios`: `sin` of the angle in radians. -/
def ratioYOf (angleDeg : ℝ) : ℝ :=
  sin (angleDeg * (π / 180))

/-! ## Layer synthesis -/

/-- `ShadowLayer` from `src/core/types.ts`. -/
structure ShadowLayer where
  offsetX : ℝ
  offsetY : ℝ
  blur : ℝ
  spread : ℝ
  opacity : ℝ
  inset : Bool

/-- The elevation clamp `Math.max(-1, Math.min(1, elevation))`. -/
def clampE (elevation : ℝ) : ℝ :=
  max (-1) (min 1 elevation)

/-- Direction multiplier: `-1` when the clamped elevation is negative
(inset), `+1` otherwise. -/
def dirFor (elevation : ℝ) : ℝ :=
  if clampE elevation < 0 then -1 else 1

/-- The `inset` flag shared by all layers of one synthesis call. -/
def insetFor (elevation : ℝ) : Bool :=
  if clampE elevation < 0 then true else false

/-- Horizontal offset ratio, zeroed for ambient light. -/
def ratioXFor (isAmbient : Bool) (angleDeg : ℝ) : ℝ :=
  if isAmbient then 0 else ratioXOf angleDeg

/-- Vertical offset ratio, zeroed for ambient light. -/
def ratioYFor (isAmbient : Bool) (angleDeg : ℝ) : ℝ :=
  if isAmbient then 0 else ratioYOf angleDeg

/-- One iteration of the synthesis loop of the five-parameter revision, at
layer index `i` (nominal layer `i + 1`): with base magnitude
`2^i * scale`, a fully active layer (`i + 1 ≤ activeLayerCount`) gets the
full offsets, blur and `BASE_OPACITY * intensity`; the fractional boundary
layer (`i < activeLayerCount < i + 1`) scales offsets and blur by the
remainder `frac = activeLayerCount - i` and its opacity by
`frac * intensity`; later layers are omitted. -/
def mkLayer5 (scale ratioX ratioY intensity activeLayerCount dir : ℝ)
    (isInset : Bool) (i : ℕ) : Option ShadowLayer :=
  if (i : ℝ) + 1 ≤ activeLayerCount then
    some ⟨2 ^ i * scale * ratioX * dir, 2 ^ i * scale * ratioY * dir,
          2 ^ i * scale, 0, BASE_OPACITY * intensity, isInset⟩
  else if (i : ℝ) < activeLayerCount then
    some ⟨2 ^ i * scale * ratioX * (activeLayerCount - i) * dir,
          2 ^ i * scale * ratioY * (activeLayerCount - i) * dir,
          2 ^ i * scale * (activeLayerCount - i), 0,
          BASE_OPACITY * (activeLayerCount - i) * intensity, isInset⟩
  else none

/-- Modelled from the spec: the five-parameter revision of
`calculateShadowLayers (elevation, lightAngle, intensity, scale, isAmbient)`.
`src/core/css-generator.ts` invokes `calculateShadowLayers` with these five
arguments, but the revision of `src/core/calculations.ts` in the repository
defines only the three-parameter variant (see `calculateShadowLayers`
below); this definition follows §4.2 of the spec: clamp the elevation to
`[-1, 1]`, return no layers at exactly 0, take
`activeLayerCount = |elevation| * MAX_LAYERS`, zero the offset ratios for
ambient light, and emit at most `MAX_LAYERS` powers-of-two layers with the
base magnitude `2^i * scale`, opacity scaled by `intensity`, and the
boundary layer interpolated by the fractional remainder. -/
def synthesize (elevation lightAngle intensity scale : ℝ) (isAmbient : Bool) :
    List ShadowLayer :=
  if clampE elevation = 0 then []
  else
    (List.range MAX_LAYERS).filterMap
      (mkLayer5 scale (ratioXFor isAmbient lightAngle) (ratioYFor isAmbient lightAngle)
        intensity (|clampE elevation| * MAX_LAYERS) (dirFor elevation) (insetFor elevation))

/-- One iteration of the synthesis loop of the three-parameter revision in
`src/core/calculations.ts`: base offset `2^i`, with `intensity` multiplying
offsets, blur and opacity alike. -/
def mkLayer3 (ratioX ratioY intensity activeLayerCount dir : ℝ)
    (isInset : Bool) (i : ℕ) : Option ShadowLayer :=
  if (i : ℝ) + 1 ≤ activeLayerCount then
    some ⟨2 ^ i * ratioX * intensity * dir, 2 ^ i * ratioY * intensity * dir,
          2 ^ i * intensity, 0, BASE_OPACITY * intensity, isInset⟩
  else if (i : ℝ) < activeLayerCount then
    some ⟨2 ^ i * ratioX * (activeLayerCount - i) * intensity * dir,
          2 ^ i * ratioY * (activeLayerCount - i) * intensity * dir,
          2 ^ i * (activeLayerCount - i) * intensity, 0,
          BASE_OPACITY * (activeLayerCount - i) * intensity, isInset⟩
  else none

/-- `calculateShadowLayers` from `src/core/calculations.ts` verbatim: the
three-parameter revision, in which `intensity` multiplies offsets and blur
as well as opacity and there is no `scale` or `isAmbient` parameter. -/
def calculateShadowLayers (elevation : ℝ)
    (lightAngle : ℝ := DEFAULT_LIGHT_ANGLE) (intensity : ℝ := 1) :
    List ShadowLayer :=
  if clampE elevation = 0 then []
  else
    (List.range MAX_LAYERS).filterMap
      (mkLayer3 (ratioXOf lightAngle) (ratioYOf lightAngle) intensity
        (|clampE elevation| * MAX_LAYERS) (dirFor elevation) (insetFor elevation))

end

/-! ## Decimal rendering of numbers

JavaScript renders a number into a template literal as its shortest
round-tripping decimal.  Under the exact-arithmetic idealisation the values
reaching a template are rationals whose exact decimal expansion terminates
(every IEEE double is a dyadic rational), and for them the shortest
round-tripping decimal of the double is that exact expansion, which is what
these functions produce. -/

/-- Decimal digits of a natural number. -/
def natDecimal (n : ℕ) : String :=
  if h : n < 10 then String.singleton (Char.ofNat (48 + n))
  else natDecimal (n / 10) ++ String.singleton (Char.ofNat (48 + n % 10))
decreasing_by exact Nat.div_lt_self (by omega) (by omega)

/-- Decimal rendering of an integer. -/
def intDecimal (k : ℤ) : String :=
  if k < 0 then "-" ++ natDecimal k.natAbs else natDecimal k.natAbs

/-- `n = p ^ k * m` with `p ∤ m`; returns `(k, m)`. -/
def stripFactor (p n : ℕ) : ℕ × ℕ :=
  if h : 2 ≤ p ∧ p ∣ n ∧ 2 ≤ n then
    let r := stripFactor p (n / p)
    (r.1 + 1, r.2)
  else (0, n)
decreasing_by exact Nat.div_lt_self (by omega) (by omega)

/-- A run of `n` zero digits, for fraction padding. -/
def zeroPad (n : ℕ) : String :=
  String.mk (List.replicate n '0')

/-- Exact decimal rendering of a rational whose denominator divides a power
of ten (the only rationals the generator renders); other denominators fall
back to a fraction form.  With the minimal exponent `k` the last fraction
digit is necessarily non-zero, so no trailing-zero trimming is needed. -/
def ratDecimal (q : ℚ) : String :=
  let sign := if q.num < 0 then "-" else ""
  let s2 := stripFactor 2 q.den
  let s5 := stripFactor 5 s2.2
  if s5.2 = 1 then
    let k := max s2.1 s5.1
    let scaled := q.num.natAbs * 10 ^ k / q.den
    if k = 0 then sign ++ natDecimal scaled
    else
      let w := scaled / 10 ^ k
      let f := scaled % 10 ^ k
      sign ++ natDecimal w ++ "." ++ zeroPad (k - (natDecimal f).length) ++ natDecimal f
  else intDecimal q.num ++ "/" ++ natDecimal q.den

noncomputable section

open Classical

/-- Decimal rendering of the real idealisation of a JavaScript number: the
exact decimal of the rational it denotes.  Values that are not rational
cannot arise from IEEE arithmetic; they render as an unspecified token. -/
def realToString (x : ℝ) : String :=
  if h : ∃ q : ℚ, (q : ℝ) = x then ratDecimal h.choose else "NaN"

/-! ## CSS generator (`src/core/css-generator.ts`) -/

/-- `ShadowLayerWithColor` from `src/core/types.ts`: a layer plus its
(structured) color string. -/
structure ShadowLayerWithColor where
  offsetX : ℝ
  offsetY : ℝ
  blur : ℝ
  spread : ℝ
  opacity : ℝ
  inset : Bool
  color : LayerColor

/-- `formatPx`: exact zero renders as a bare `0`; any other value is
rounded to two decimals (`Math.round(value * 100) / 100`, i.e. the integer
`⌊value * 100 + 1/2⌋` of hundredths) and rendered with a `px` suffix. -/
def formatPx (value : ℝ) : String :=
  if value = 0 then "0"
  else ratDecimal ((⌊value * 100 + 1 / 2⌋ : ℚ) / 100) ++ "px"

/-- The template `hsl(${h} ${s}% ${l}% / ${a})` of a layer color. -/
def layerColorString (c : LayerColor) : String :=
  "hsl(" ++ ratDecimal c.h ++ " " ++ ratDecimal c.s ++ "% " ++ ratDecimal c.l ++
    "% / " ++ realToString c.a ++ ")"

/-- One layer of the `box-shadow` list: `[inset ]x y b [s ]color`, with the
spread token omitted when the spread is 0. -/
def layerToCSS (layer : ShadowLayerWithColor) : String :=
  (if layer.inset then "inset " else "") ++
    formatPx layer.offsetX ++ " " ++ formatPx layer.offsetY ++ " " ++
    formatPx layer.blur ++
    (if layer.spread = 0 then " " ++ layerColorString layer.color
     else " " ++ formatPx layer.spread ++ " " ++ layerColorString layer.color)

/-- `Array.prototype.join(',\n    ')`. -/
def joinShadow : List String → String
  | [] => ""
  | [s] => s
  | s :: rest => s ++ ",\n    " ++ joinShadow rest

/-- `layersToCSS` from `src/core/css-generator.ts`: the literal `'none'`
for an empty layer list, otherwise the joined per-layer strings in
synthesis order. -/
def layersToCSS (layers : List ShadowLayerWithColor) : String :=
  if layers.isEmpty then "none"
  else joinShadow (layers.map layerToCSS)

/-- `ShadowOptions` from `src/core/types.ts`, with the `scale` field of the
revision consumed by `css-generator.ts` (which destructures
`scale = 1` from its options). -/
structure ShadowOptions where
  elevation : Option ℝ
  lightSource : Option LightSourceProp
  background : Option String
  shadowColor : Option String
  shadowColorDark : Option String
  intensity : Option ℝ
  scale : Option ℝ
  isDarkMode : Option Bool

/-- JavaScript truthiness of an optional string: `undefined` and the empty
string are falsy. -/
def strTruthy : Option String → Bool
  | some s => !s.isEmpty
  | none => false

/-- The shadow-color priority chain of `generateShadow`
(`src/core/css-generator.ts`, lines 52–62), factored into its own
definition: a truthy `shadowColor` override wins; else a truthy
`shadowColorDark` in dark mode; else a truthy `background` is run through
`calculateShadowColor`; else the fixed fallbacks.  `Option.getD` under the
truthiness guard is exactly the guarded value. -/
def resolveShadowColor (shadowColorOverride shadowColorDark background : Option String)
    (isDarkMode : Bool) : CssColor :=
  if strTruthy shadowColorOverride then .raw (shadowColorOverride.getD "")
  else if isDarkMode && strTruthy shadowColorDark then .raw (shadowColorDark.getD "")
  else if strTruthy background then calculateShadowColor (background.getD "") isDarkMode
  else if isDarkMode then .hslA 0 0 100 0.1 else .hsl 220 3 15

/-- `applyColorToLayers`: attach the resolved base color to every layer,
folding in the layer's own opacity. -/
def applyColorToLayers (layers : List ShadowLayer) (shadowColor : CssColor) :
    List ShadowLayerWithColor :=
  layers.map fun layer =>
    ⟨layer.offsetX, layer.offsetY, layer.blur, layer.spread, layer.opacity,
     layer.inset, generateLayerColor shadowColor layer.opacity⟩

/-- `generateCSSVariables`: the derived custom-property map, as an ordered
association list. -/
def generateCSSVariables (layers : List ShadowLayerWithColor)
    (elevation lightAngle : ℝ) : List (String × String) :=
  [("--lifted-elevation", realToString elevation),
   ("--lifted-light-angle", realToString lightAngle ++ "deg"),
   ("--lifted-layers", natDecimal layers.length),
   ("--lifted-shadow", layersToCSS layers)]

/-- `ShadowResult` from `src/core/types.ts`. -/
structure ShadowResult where
  layers : List ShadowLayerWithColor
  boxShadow : String
  cssVariables : List (String × String)

/-- The `lightSource.type === 'ambient'` test. -/
def isAmbientSource : LightSource → Bool
  | .ambient => true
  | _ => false

/-- `generateShadow` from `src/core/css-generator.ts`: destructure the
options with their defaults (`elevation = 0.3`, `intensity = 1`,
`scale = 1`, `isDarkMode = false`), normalise the light source, resolve the
angle, synthesize base layers (five-argument call), resolve the base color
by the priority chain, attach per-layer colors, and serialise. -/
def generateShadow (options : ShadowOptions)
    (elementBounds : Option Bounds := none)
    (mousePosition : Option Position := none) : ShadowResult :=
  let elevation := options.elevation.getD 0.3
  let intensity := options.intensity.getD 1
  let scale := options.scale.getD 1
  let isDarkMode := options.isDarkMode.getD false
  let lightSource := normalizeLightSource options.lightSource
  let isAmbient := isAmbientSource lightSource
  let lightAngle := calculateLightAngle lightSource elementBounds mousePosition
  let baseLayers := synthesize elevation lightAngle intensity scale isAmbient
  let shadowColor :=
    resolveShadowColor options.shadowColor options.shadowColorDark
      options.background isDarkMode
  let layers := applyColorToLayers baseLayers shadowColor
  ⟨layers, layersToCSS layers, generateCSSVariables layers elevation lightAngle⟩

end

/-! ## Basic lemmas -/

lemma clampE_self {e : ℝ} (h0 : -1 ≤ e) (h1 : e ≤ 1) : clampE e = e := by
  rw [clampE, min_eq_right h1, max_eq_right h0]

lemma clampE_zero : clampE (0 : ℝ) = 0 :=
  clampE_self (by norm_num) (by norm_num)

lemma synthesize_zero (a t s : ℝ) (amb : Bool) : synthesize 0 a t s amb = [] := by
  rw [synthesize, if_pos clampE_zero]

lemma layersToCSS_nil : layersToCSS [] = "none" := rfl

lemma mk5_full {s rx ry t ac d : ℝ} {ins : Bool} {i : ℕ} (h : (i : ℝ) + 1 ≤ ac) :
    mkLayer5 s rx ry t ac d ins i =
      some ⟨2 ^ i * s * rx * d, 2 ^ i * s * ry * d, 2 ^ i * s, 0,
            BASE_OPACITY * t, ins⟩ := by
  rw [mkLayer5, if_pos h]

lemma mk5_frac {s rx ry t ac d : ℝ} {ins : Bool} {i : ℕ}
    (h1 : ¬(i : ℝ) + 1 ≤ ac) (h2 : (i : ℝ) < ac) :
    mkLayer5 s rx ry t ac d ins i =
      some ⟨2 ^ i * s * rx * (ac - i) * d, 2 ^ i * s * ry * (ac - i) * d,
            2 ^ i * s * (ac - i), 0, BASE_OPACITY * (ac - i) * t, ins⟩ := by
  rw [mkLayer5, if_neg h1, if_pos h2]

lemma strTruthy_some {s : String} (h : s ≠ "") : strTruthy (some s) = true := by
  simpa [strTruthy, Bool.eq_false_iff, String.isEmpty_iff] using h

lemma mk5_none {s rx ry t ac d : ℝ} {ins : Bool} {i : ℕ} (h : ¬(i : ℝ) < ac) :
    mkLayer5 s rx ry t ac d ins i = none := by
  rw [mkLayer5, if_neg, if_neg h]
  intro hle
  exact h (lt_of_lt_of_le (by linarith) hle)

lemma clampE_bounds (e : ℝ) : -1 ≤ clampE e ∧ clampE e ≤ 1 :=
  ⟨le_max_left _ _, max_le (by norm_num) (min_le_left _ _)⟩

lemma maxLayers_cast : ((MAX_LAYERS : ℕ) : ℝ) = 5 := by
  norm_num [MAX_LAYERS]

lemma range_maxLayers : List.range MAX_LAYERS = [0, 1, 2, 3, 4] := rfl

/-- The three-parameter revision in `src/core/calculations.ts` coincides
with the spec-modelled five-parameter revision at `scale = intensity` and
`isAmbient = false`: its `intensity` factor on offsets and blur plays the
role the spec assigns to `scale`. -/
lemma calculateShadowLayers_eq_synthesize (e a t : ℝ) :
    calculateShadowLayers e a t = synthesize e a t t false := by
  rw [calculateShadowLayers, synthesize]
  split_ifs with h
  · rfl
  · refine congrArg (fun f => List.filterMap f (List.range MAX_LAYERS)) (funext fun i => ?_)
    rw [mkLayer3, mkLayer5]
    split_ifs with h1 h2 <;>
      simp only [Option.some.injEq, ShadowLayer.mk.injEq, ratioXFor, ratioYFor,
        Bool.false_eq_true, if_false] <;> try rfl
    · exact ⟨by ring, by ring, by ring, trivial, trivial, trivial⟩
    · exact ⟨by ring, by ring, by ring, trivial, trivial, trivial⟩

/-- The loop `while (angleDiff > 180) angleDiff -= 360` ends at a value at
most `180`; `wrapDown` reproduces it. -/
lemma wrapDown_le (x : ℝ) : wrapDown x ≤ 180 := by
  rw [wrapDown]
  have hc := Int.le_ceil ((x - 180) / 360)
  have hmax : (⌈(x - 180) / 360⌉ : ℝ) ≤ ((max 0 ⌈(x - 180) / 360⌉ : ℤ) : ℝ) := by
    exact_mod_cast le_max_right (0 : ℤ) ⌈(x - 180) / 360⌉
  have h1 : (x - 180) / 360 ≤ ((max 0 ⌈(x - 180) / 360⌉ : ℤ) : ℝ) := le_trans hc hmax
  have h2 := (div_le_iff₀ (by norm_num : (0:ℝ) < 360)).mp h1
  linarith

/-- The loop subtracts `360` a minimal number of times, so a value already
above `-180` never drops to `-180` or below. -/
lemma wrapDown_gt (x : ℝ) (hx : -180 < x) : -180 < wrapDown x := by
  rw [wrapDown]
  rcases le_or_lt ⌈(x - 180) / 360⌉ 0 with hle | hpos
  · rw [max_eq_left hle]
    push_cast
    linarith
  · rw [max_eq_right hpos.le]
    have hc : (⌈(x - 180) / 360⌉ : ℝ) < (x - 180) / 360 + 1 := Int.ceil_lt_add_one _
    have h2 : ((x - 180) / 360 + 1) * 360 = x + 180 := by
      field_simp
      ring
    nlinarith [hc]

/-- The loop `while (angleDiff < -180) angleDiff += 360` ends at a value at
least `-180`; `wrapUp` reproduces it. -/
lemma wrapUp_ge (x : ℝ) : -180 ≤ wrapUp x := by
  rw [wrapUp]
  have hc := Int.le_ceil ((-180 - x) / 360)
  have hmax : (⌈(-180 - x) / 360⌉ : ℝ) ≤ ((max 0 ⌈(-180 - x) / 360⌉ : ℤ) : ℝ) := by
    exact_mod_cast le_max_right (0 : ℤ) ⌈(-180 - x) / 360⌉
  have h1 : (-180 - x) / 360 ≤ ((max 0 ⌈(-180 - x) / 360⌉ : ℤ) : ℝ) := le_trans hc hmax
  have h2 := (div_le_iff₀ (by norm_num : (0:ℝ) < 360)).mp h1
  linarith

/-- A value already at most `180` stays at most `180` after `wrapUp`, so
the two loops together wrap into `[-180, 180]`. -/
lemma wrapUp_le (x : ℝ) (hx : x ≤ 180) : wrapUp x ≤ 180 := by
  rw [wrapUp]
  rcases le_or_lt ⌈(-180 - x) / 360⌉ 0 with hle | hpos
  · rw [max_eq_left hle]
    push_cast
    linarith
  · rw [max_eq_right hpos.le]
    have hc : (⌈(-180 - x) / 360⌉ : ℝ) < (-180 - x) / 360 + 1 := Int.ceil_lt_add_one _
    nlinarith [hc]

lemma joinShadow_length_ge (s : String) (rest : List String) :
    s.length ≤ (joinShadow (s :: rest)).length := by
  cases rest with
  | nil => simp [joinShadow]
  | cons r rs =>
    rw [show joinShadow (s :: r :: rs) = s ++ ",\n    " ++ joinShadow (r :: rs) from rfl,
      String.length_append, String.length_append]
    omega

lemma formatPx_length_pos (v : ℝ) : 1 ≤ (formatPx v).length := by
  rw [formatPx]
  split_ifs
  · decide
  · rw [String.length_append, show "px".length = 2 from rfl]
    omega

lemma layerColorString_length (c : LayerColor) :
    5 ≤ (layerColorString c).length := by
  rw [layerColorString]
  simp only [String.length_append, show "hsl(".length = 4 from rfl,
    show " ".length = 1 from rfl, show "% ".length = 2 from rfl,
    show "% / ".length = 4 from rfl, show ")".length = 1 from rfl]
  omega

lemma layerToCSS_length (l : ShadowLayerWithColor) : 5 ≤ (layerToCSS l).length := by
  have h1 := formatPx_length_pos l.offsetX
  have h2 := formatPx_length_pos l.offsetY
  have h3 := formatPx_length_pos l.blur
  have h4 := layerColorString_length l.color
  rw [layerToCSS]
  split_ifs <;>
    simp only [String.length_append, show " ".length = 1 from rfl,
      show "inset ".length = 6 from rfl, show "".length = 0 from rfl] <;>
    omega

lemma layersToCSS_cons_ne_none (l : ShadowLayerWithColor) (ls : List ShadowLayerWithColor) :
    layersToCSS (l :: ls) ≠ "none" := by
  intro hcon
  have hlen : (layersToCSS (l :: ls)).length = 4 := by rw [hcon]; rfl
  have h5 : 5 ≤ (layersToCSS (l :: ls)).length := by
    rw [layersToCSS]
    simp only [List.isEmpty_cons, if_false, List.map_cons]
    calc 5 ≤ (layerToCSS l).length := layerToCSS_length l
    _ ≤ (joinShadow (layerToCSS l :: ls.map layerToCSS)).length :=
        joinShadow_length_ge _ _
  omega

lemma synthesize_third_ne_nil (a t s : ℝ) (amb : Bool) :
    synthesize 0.3 a t s amb ≠ [] := by
  have hc : clampE (0.3 : ℝ) = 0.3 := clampE_self (by norm_num) (by norm_num)
  have habs : |clampE (0.3 : ℝ)| = 0.3 := by rw [hc]; norm_num
  rw [synthesize, if_neg (by rw [hc]; norm_num), maxLayers_cast, habs, range_maxLayers]
  rw [List.filterMap_cons_some (mk5_full (by push_cast; norm_num))]
  simp

/-! ## Claim theorems -/

/-- C7: for a mouse light source, a missing bounds argument or a missing
pointer-position argument makes `calculateLightAngle` return exactly the
configured `fallbackAngle` (default `-45`), whatever the other argument is. -/
theorem mouse_missing_geometry_fallback (sm mx fb : Option ℝ)
    (b : Option Bounds) (p : Option Position) (h : b = none ∨ p = none) :
    calculateLightAngle (.mouse sm mx fb) b p = fb.getD (-45) := by
  rcases h with h | h
  · subst h
    cases p <;> simp [calculateLightAngle, DEFAULT_LIGHT_ANGLE]
  · subst h
    simp [calculateLightAngle, DEFAULT_LIGHT_ANGLE]

/-- Witness for C7. -/
theorem mouse_missing_geometry_fallback_check :
    calculateLightAngle (.mouse none none (some 7)) (some ⟨0, 0, 2, 2⟩) none = 7 := by
  simpa using
    mouse_missing_geometry_fallback none none (some 7) (some ⟨0, 0, 2, 2⟩) none (Or.inr rfl)

/-- C4: the shadow base color used by `generateShadow` follows the exact
priority chain: a set (non-empty) `shadowColor` wins unconditionally, even
with `background`, `shadowColorDark` and `isDarkMode` all set; otherwise a
set `shadowColorDark` in dark mode; otherwise a set `background` through
`calculateShadowColor`; otherwise the fixed fallbacks.  The final conjunct
records that `generateShadow` colors its layers with exactly
`resolveShadowColor` of its options. -/
theorem shadow_color_priority (sc scd bg : Option String) (dark : Bool) :
    (∀ s, sc = some s → s ≠ "" → resolveShadowColor sc scd bg dark = .raw s)
    ∧ (strTruthy sc = false → dark = true → ∀ s, scd = some s → s ≠ "" →
        resolveShadowColor sc scd bg dark = .raw s)
    ∧ (strTruthy sc = false → (dark && strTruthy scd) = false →
        ∀ s, bg = some s → s ≠ "" →
        resolveShadowColor sc scd bg dark = calculateShadowColor s dark)
    ∧ (strTruthy sc = false → (dark && strTruthy scd) = false →
        strTruthy bg = false →
        resolveShadowColor sc scd bg dark =
          if dark then .hslA 0 0 100 0.1 else .hsl 220 3 15)
    ∧ (∀ (opts : ShadowOptions) b p,
        (generateShadow opts b p).layers =
          applyColorToLayers
            (synthesize (opts.elevation.getD 0.3)
              (calculateLightAngle (normalizeLightSource opts.lightSource) b p)
              (opts.intensity.getD 1) (opts.scale.getD 1)
              (isAmbientSource (normalizeLightSource opts.lightSource)))
            (resolveShadowColor opts.shadowColor opts.shadowColorDark
              opts.background (opts.isDarkMode.getD false))) := by
  refine ⟨?_, ?_, ?_, ?_, fun opts b p => rfl⟩
  · intro s hs hne
    subst hs
    have ht : strTruthy (some s) = true := strTruthy_some hne
    rw [resolveShadowColor, if_pos ht]
    simp
  · intro hsc hdark s hs hne
    subst hs hdark
    have ht : strTruthy (some s) = true := strTruthy_some hne
    rw [resolveShadowColor, if_neg (by simp [hsc]), if_pos (by simp [ht])]
    simp
  · intro hsc hscd s hs hne
    subst hs
    have ht : strTruthy (some s) = true := strTruthy_some hne
    rw [resolveShadowColor, if_neg (by simp [hsc]), if_neg (by simp [hscd]),
      if_pos ht]
    simp
  · intro hsc hscd hbg
    rw [resolveShadowColor, if_neg (by simp [hsc]), if_neg (by simp [hscd]),
      if_neg (by simp [hbg])]

/-- Witness for C4: `shadowColor` wins with everything else set. -/
theorem shadow_color_priority_check :
    resolveShadowColor (some "red") (some "blue") (some "#fff") true =
      .raw "red" :=
  (shadow_color_priority (some "red") (some "blue") (some "#fff") true).1 "red" rfl
    (by decide)

/-- C9: `synthesize` at (clamped) elevation 0 returns the empty layer list
for every angle, intensity, scale and ambient flag; serialising an empty
layer list yields the literal `'none'`; and `generateShadow` at elevation 0
produces zero layers and the `'none'` box shadow. -/
theorem zero_elevation_serialization :
    (∀ (a t s : ℝ) (amb : Bool), synthesize 0 a t s amb = [])
    ∧ layersToCSS [] = "none"
    ∧ (∀ (opts : ShadowOptions) (b : Option Bounds) (p : Option Position),
        opts.elevation = some 0 →
        (generateShadow opts b p).layers = [] ∧
          (generateShadow opts b p).boxShadow = "none") := by
  refine ⟨synthesize_zero, layersToCSS_nil, ?_⟩
  intro opts b p h
  have hlayers : (generateShadow opts b p).layers = [] := by
    simp [generateShadow, h, synthesize_zero, applyColorToLayers]
  refine ⟨hlayers, ?_⟩
  show layersToCSS (generateShadow opts b p).layers = "none"
  rw [hlayers, layersToCSS_nil]

/-- Witness for C9. -/
theorem zero_elevation_serialization_check :
    (generateShadow ⟨some 0, none, none, none, none, none, none, none⟩ none none).layers = []
    ∧ (generateShadow ⟨some 0, none, none, none, none, none, none, none⟩ none none).boxShadow
        = "none" :=
  zero_elevation_serialization.2.2 ⟨some 0, none, none, none, none, none, none, none⟩
    none none rfl

/-- C1: with a non-zero clamped elevation, ambient synthesis
(`isAmbient = true`) produces only layers with `offsetX = offsetY = 0`,
for every angle, intensity and scale, while the blur/opacity sequence is
identical to a non-ambient call with the same elevation, intensity and
scale (and any angle). -/
theorem ambient_zero_offsets (e a a2 t s : ℝ) (h : clampE e ≠ 0) :
    (∀ l ∈ synthesize e a t s true, l.offsetX = 0 ∧ l.offsetY = 0)
    ∧ (synthesize e a t s true).map (fun l => (l.blur, l.opacity)) =
        (synthesize e a2 t s false).map (fun l => (l.blur, l.opacity)) := by
  constructor
  · intro l hl
    rw [synthesize, if_neg h] at hl
    obtain ⟨i, -, hi⟩ := List.mem_filterMap.mp hl
    by_cases h1 : (i : ℝ) + 1 ≤ |clampE e| * MAX_LAYERS
    · rw [mk5_full h1] at hi
      cases hi
      constructor <;> simp [ratioXFor, ratioYFor]
    · by_cases h2 : (i : ℝ) < |clampE e| * MAX_LAYERS
      · rw [mk5_frac h1 h2] at hi
        cases hi
        constructor <;> simp [ratioXFor, ratioYFor]
      · rw [mk5_none h2] at hi
        cases hi
  · rw [synthesize, synthesize, if_neg h, if_neg h, List.map_filterMap,
      List.map_filterMap]
    refine congrArg (fun f => List.filterMap f (List.range MAX_LAYERS)) (funext fun i => ?_)
    by_cases h1 : (i : ℝ) + 1 ≤ |clampE e| * MAX_LAYERS
    · rw [mk5_full h1, mk5_full h1]
      rfl
    · by_cases h2 : (i : ℝ) < |clampE e| * MAX_LAYERS
      · rw [mk5_frac h1 h2, mk5_frac h1 h2]
        rfl
      · rw [mk5_none h2, mk5_none h2]

/-- Witness for C1. -/
theorem ambient_zero_offsets_check :
    (∀ l ∈ synthesize 1 90 1 1 true, l.offsetX = 0 ∧ l.offsetY = 0)
    ∧ (synthesize 1 90 1 1 true).map (fun l => (l.blur, l.opacity)) =
        (synthesize 1 0 1 1 false).map (fun l => (l.blur, l.opacity)) :=
  ambient_zero_offsets 1 90 0 1 1
    (by rw [clampE_self (by norm_num) (by norm_num)]; norm_num)

/-- C6: for `|e|` in `(0, 1]` (stated with `e` positive), synthesis at
`-e` equals synthesis at `e` with every offset sign flipped and every
`inset` flag set, with blur, spread and opacity unchanged layer by layer;
all layers of the inset call carry `inset = true` and all layers of the
outset call carry `inset = false`. -/
theorem inset_outset_symmetry (e a t s : ℝ) (amb : Bool)
    (h0 : 0 < e) (h1 : e ≤ 1) :
    synthesize (-e) a t s amb =
      (synthesize e a t s amb).map
        (fun l => ⟨-l.offsetX, -l.offsetY, l.blur, l.spread, l.opacity, true⟩)
    ∧ (∀ l ∈ synthesize (-e) a t s amb, l.inset = true)
    ∧ (∀ l ∈ synthesize e a t s amb, l.inset = false) := by
  have hce : clampE e = e := clampE_self (by linarith) h1
  have hcn : clampE (-e) = -e := clampE_self (by linarith) (by linarith)
  have hne : clampE e ≠ 0 := by rw [hce]; exact ne_of_gt h0
  have hnn : clampE (-e) ≠ 0 := by rw [hcn]; exact neg_ne_zero.mpr (ne_of_gt h0)
  have habs : |clampE (-e)| = |clampE e| := by rw [hce, hcn, abs_neg]
  have hdn : dirFor (-e) = -1 := by
    rw [dirFor, if_pos]
    rw [hcn]
    linarith
  have hde : dirFor e = 1 := by
    rw [dirFor, if_neg]
    rw [hce]
    exact not_lt.mpr (le_of_lt h0)
  have hin : insetFor (-e) = true := by
    rw [insetFor, if_pos]
    rw [hcn]
    linarith
  have hie : insetFor e = false := by
    rw [insetFor, if_neg]
    rw [hce]
    exact not_lt.mpr (le_of_lt h0)
  refine ⟨?_, ?_, ?_⟩
  · rw [synthesize, synthesize, if_neg hnn, if_neg hne, List.map_filterMap,
      habs, hdn, hde, hin, hie]
    refine congrArg (fun f => List.filterMap f (List.range MAX_LAYERS)) (funext fun i => ?_)
    by_cases hf : (i : ℝ) + 1 ≤ |clampE e| * MAX_LAYERS
    · rw [mk5_full hf, mk5_full hf, Option.map_some']
      simp only [ShadowLayer.mk.injEq]
      norm_num
    · by_cases hp : (i : ℝ) < |clampE e| * MAX_LAYERS
      · rw [mk5_frac hf hp, mk5_frac hf hp, Option.map_some']
        simp only [ShadowLayer.mk.injEq]
        norm_num
      · rw [mk5_none hp, mk5_none hp]
        rfl
  · intro l hl
    rw [synthesize, if_neg hnn] at hl
    obtain ⟨i, -, hi⟩ := List.mem_filterMap.mp hl
    by_cases hf : (i : ℝ) + 1 ≤ |clampE (-e)| * MAX_LAYERS
    · rw [mk5_full hf] at hi
      cases hi
      exact hin
    · by_cases hp : (i : ℝ) < |clampE (-e)| * MAX_LAYERS
      · rw [mk5_frac hf hp] at hi
        cases hi
        exact hin
      · rw [mk5_none hp] at hi
        cases hi
  · intro l hl
    rw [synthesize, if_neg hne] at hl
    obtain ⟨i, -, hi⟩ := List.mem_filterMap.mp hl
    by_cases hf : (i : ℝ) + 1 ≤ |clampE e| * MAX_LAYERS
    · rw [mk5_full hf] at hi
      cases hi
      exact hie
    · by_cases hp : (i : ℝ) < |clampE e| * MAX_LAYERS
      · rw [mk5_frac hf hp] at hi
        cases hi
        exact hie
      · rw [mk5_none hp] at hi
        cases hi

/-- Witness for C6. -/
theorem inset_outset_symmetry_check :
    synthesize (-(1/2)) 30 1 1 false =
      (synthesize (1/2) 30 1 1 false).map
        (fun l => ⟨-l.offsetX, -l.offsetY, l.blur, l.spread, l.opacity, true⟩)
    ∧ (∀ l ∈ synthesize (-(1/2)) 30 1 1 false, l.inset = true)
    ∧ (∀ l ∈ synthesize (1/2) 30 1 1 false, l.inset = false) :=
  inset_outset_symmetry (1/2) 30 1 1 false (by norm_num) (by norm_num)

/-- C2: every fully active layer (index `i` with
`i + 1 ≤ activeLayerCount = |clamped elevation| * 5`) of a non-ambient
synthesis satisfies `blur = 2^i * scale`,
`offsetX = 2^i * scale * cos(angle) * directionSign`,
`offsetY = 2^i * scale * sin(angle) * directionSign` and
`opacity = 0.075 * intensity`: intensity multiplies only the opacity and
scale only the geometric magnitudes. -/
theorem full_layer_formula (e a t s : ℝ) (i : ℕ)
    (h : (i : ℝ) + 1 ≤ |clampE e| * 5) :
    (synthesize e a t s false)[i]? =
      some ⟨2 ^ i * s * Real.cos (a * (Real.pi / 180)) * dirFor e,
            2 ^ i * s * Real.sin (a * (Real.pi / 180)) * dirFor e,
            2 ^ i * s, 0, 0.075 * t, insetFor e⟩ := by
  have hcast : (0 : ℝ) ≤ (i : ℝ) := Nat.cast_nonneg i
  have habs : |clampE e| ≤ 1 := abs_le.mpr (clampE_bounds e)
  have hpos : clampE e ≠ 0 := by
    have : 0 < |clampE e| := by linarith
    exact abs_ne_zero.mp (ne_of_gt this)
  have hi4 : i ≤ 4 := by
    by_contra hcon
    push_neg at hcon
    have : (5 : ℝ) ≤ (i : ℝ) := by exact_mod_cast hcon
    linarith
  rw [synthesize, if_neg hpos, maxLayers_cast, range_maxLayers]
  interval_cases i
  · rw [List.filterMap_cons_some (mk5_full (by push_cast at h ⊢; linarith))]
    simp [ratioXFor, ratioYFor, ratioXOf, ratioYOf, BASE_OPACITY]
  · rw [List.filterMap_cons_some (mk5_full (by push_cast at h ⊢; linarith)),
      List.filterMap_cons_some (mk5_full (by push_cast at h ⊢; linarith))]
    simp [ratioXFor, ratioYFor, ratioXOf, ratioYOf, BASE_OPACITY]
  · rw [List.filterMap_cons_some (mk5_full (by push_cast at h ⊢; linarith)),
      List.filterMap_cons_some (mk5_full (by push_cast at h ⊢; linarith)),
      List.filterMap_cons_some (mk5_full (by push_cast at h ⊢; linarith))]
    simp [ratioXFor, ratioYFor, ratioXOf, ratioYOf, BASE_OPACITY]
  · rw [List.filterMap_cons_some (mk5_full (by push_cast at h ⊢; linarith)),
      List.filterMap_cons_some (mk5_full (by push_cast at h ⊢; linarith)),
      List.filterMap_cons_some (mk5_full (by push_cast at h ⊢; linarith)),
      List.filterMap_cons_some (mk5_full (by push_cast at h ⊢; linarith))]
    simp [ratioXFor, ratioYFor, ratioXOf, ratioYOf, BASE_OPACITY]
  · rw [List.filterMap_cons_some (mk5_full (by push_cast at h ⊢; linarith)),
      List.filterMap_cons_some (mk5_full (by push_cast at h ⊢; linarith)),
      List.filterMap_cons_some (mk5_full (by push_cast at h ⊢; linarith)),
      List.filterMap_cons_some (mk5_full (by push_cast at h ⊢; linarith)),
      List.filterMap_cons_some (mk5_full (by push_cast at h ⊢; linarith))]
    simp [ratioXFor, ratioYFor, ratioXOf, ratioYOf, BASE_OPACITY]

/-- Witness for C2. -/
theorem full_layer_formula_check :
    (synthesize 1 0 2 3 false)[4]? =
      some ⟨2 ^ 4 * 3 * Real.cos (0 * (Real.pi / 180)) * dirFor 1,
            2 ^ 4 * 3 * Real.sin (0 * (Real.pi / 180)) * dirFor 1,
            2 ^ 4 * 3, 0, 0.075 * 2, insetFor 1⟩ := by
  have h : ((4 : ℕ) : ℝ) + 1 ≤ |clampE 1| * 5 := by
    rw [clampE_self (by norm_num) (by norm_num)]
    norm_num
  exact full_layer_formula 1 0 2 3 4 h

/-- C5: a mouse light source always resolves to an angle within
`maxAngle` degrees of `fallbackAngle` (first conjunct, for a non-negative
`maxAngle`); and for `fallbackAngle = -45`, `maxAngle = 60`, element
bounds centred at the origin and the pointer at `(100, 0)`, the resolved
angle is exactly `-105`: the raw angle is `atan2(0, 100)·180/π + 180 =
180`, its wrapped difference from `-45` is `-135`, clamping to `[-60, 60]`
gives `-60`, and `-45 + (-60) = -105`. -/
theorem mouse_angle_clamp :
    (∀ (sm mx fb : Option ℝ) (b : Option Bounds) (p : Option Position),
        0 ≤ mx.getD 30 →
        |calculateLightAngle (.mouse sm mx fb) b p - fb.getD (-45)| ≤ mx.getD 30)
    ∧ (∀ (sm : Option ℝ) (b : Bounds),
        b.x + b.width / 2 = 0 → b.y + b.height / 2 = 0 →
        calculateLightAngle (.mouse sm (some 60) (some (-45))) (some b)
          (some ⟨100, 0⟩) = -105) := by
  constructor
  · intro sm mx fb b p hmx
    cases p with
    | none =>
      simp only [calculateLightAngle, DEFAULT_MAX_MOUSE_ANGLE, DEFAULT_LIGHT_ANGLE] at hmx ⊢
      simp [abs_nonneg, hmx]
    | some pp =>
      cases b with
      | none =>
        simp only [calculateLightAngle, DEFAULT_MAX_MOUSE_ANGLE, DEFAULT_LIGHT_ANGLE] at hmx ⊢
        simp [hmx]
      | some bb =>
        simp only [calculateLightAngle, DEFAULT_MAX_MOUSE_ANGLE, DEFAULT_LIGHT_ANGLE] at hmx ⊢
        rw [add_sub_cancel_left, abs_le]
        refine ⟨le_max_left _ _, max_le (by linarith) (min_le_left _ _)⟩
  · intro sm b hx hy
    have hat : atan2 0 100 = 0 := by
      rw [atan2, if_pos (by norm_num : (0:ℝ) < 100)]
      norm_num [Real.arctan_zero]
    have hwd : wrapDown 225 = -135 := by
      have h1 : (⌈(((225:ℝ)) - 180) / 360⌉ : ℤ) = 1 := by
        rw [Int.ceil_eq_iff]
        constructor <;> norm_num
      rw [wrapDown, h1]
      norm_num
    have hwu : wrapUp (-135) = -135 := by
      have h0 : (⌈((-180 : ℝ) - (-135)) / 360⌉ : ℤ) = 0 := by
        rw [Int.ceil_eq_iff]
        constructor <;> norm_num
      rw [wrapUp, h0]
      norm_num
    simp only [calculateLightAngle, Option.getD_some]
    rw [hx, hy]
    norm_num [hat, hwd, hwu]

/-- Witness for C5. -/
theorem mouse_angle_clamp_check :
    |calculateLightAngle (.mouse none none none) none none - (-45)| ≤ 30
    ∧ calculateLightAngle (.mouse none (some 60) (some (-45)))
        (some ⟨-50, -50, 100, 100⟩) (some ⟨100, 0⟩) = -105 :=
  ⟨by simpa using mouse_angle_clamp.1 none none none none none (by norm_num),
   mouse_angle_clamp.2 none ⟨-50, -50, 100, 100⟩ (by norm_num) (by norm_num)⟩

/-- C3: for elevation `e` in `(0, 1]`, `synthesize` returns exactly
`⌈e · 5⌉` layers, and when `e · 5` is not an integer the fractional
remainder `e·5 - ⌊e·5⌋` lies in `(0, 1)` and the last returned layer is the
boundary layer: offsets, blur and opacity of layer `⌊e·5⌋` additionally
scaled by that remainder. -/
theorem layer_count_and_boundary (e a t s : ℝ) (amb : Bool)
    (h0 : 0 < e) (h1 : e ≤ 1) :
    (synthesize e a t s amb).length = (⌈e * 5⌉).toNat
    ∧ (((⌊e * 5⌋ : ℤ) : ℝ) < e * 5 →
        0 < e * 5 - ⌊e * 5⌋ ∧ e * 5 - ⌊e * 5⌋ < 1 ∧
        (synthesize e a t s amb).getLast? =
          some ⟨2 ^ (⌊e * 5⌋).toNat * s * ratioXFor amb a * (e * 5 - ⌊e * 5⌋),
                2 ^ (⌊e * 5⌋).toNat * s * ratioYFor amb a * (e * 5 - ⌊e * 5⌋),
                2 ^ (⌊e * 5⌋).toNat * s * (e * 5 - ⌊e * 5⌋), 0,
                0.075 * (e * 5 - ⌊e * 5⌋) * t, false⟩) := by
  have hce : clampE e = e := clampE_self (by linarith) h1
  have hne : clampE e ≠ 0 := by rw [hce]; exact ne_of_gt h0
  have habs : |clampE e| = e := by rw [hce, abs_of_pos h0]
  have hdir : dirFor e = 1 := by
    rw [dirFor, if_neg]
    rw [hce]
    exact not_lt.mpr h0.le
  have hins : insetFor e = false := by
    rw [insetFor, if_neg]
    rw [hce]
    exact not_lt.mpr h0.le
  have hpos5 : (0 : ℝ) < e * 5 := by linarith
  have hn1 : 0 < ⌈e * 5⌉ := Int.ceil_pos.mpr hpos5
  have hn5 : ⌈e * 5⌉ ≤ 5 := Int.ceil_le.mpr (by push_cast; linarith)
  rw [synthesize, if_neg hne, maxLayers_cast, habs, hdir, hins, range_maxLayers]
  have hcases : ⌈e * 5⌉ = 1 ∨ ⌈e * 5⌉ = 2 ∨ ⌈e * 5⌉ = 3 ∨ ⌈e * 5⌉ = 4 ∨ ⌈e * 5⌉ = 5 := by
    omega
  rcases hcases with hk | hk | hk | hk | hk
  · obtain ⟨hb1, hb2⟩ := Int.ceil_eq_iff.mp hk
    push_cast at hb1 hb2
    by_cases hfull : (1 : ℝ) ≤ e * 5
    · have heq : e * 5 = 1 := le_antisymm hb2 hfull
      rw [List.filterMap_cons_some (mk5_full (by push_cast; linarith)),
        List.filterMap_cons_none (mk5_none (by push_cast; linarith)),
        List.filterMap_cons_none (mk5_none (by push_cast; linarith)),
        List.filterMap_cons_none (mk5_none (by push_cast; linarith)),
        List.filterMap_cons_none (mk5_none (by push_cast; linarith)),
        List.filterMap_nil]
      refine ⟨by rw [hk]; rfl, ?_⟩
      intro hlt
      exfalso
      have hfl : ⌊e * 5⌋ = 1 := by rw [heq]; norm_num
      rw [hfl] at hlt
      push_cast at hlt
      linarith
    · have hlt1 : e * 5 < 1 := not_le.mp hfull
      rw [List.filterMap_cons_some (mk5_frac (by push_cast; linarith) (by push_cast; linarith)),
        List.filterMap_cons_none (mk5_none (by push_cast; linarith)),
        List.filterMap_cons_none (mk5_none (by push_cast; linarith)),
        List.filterMap_cons_none (mk5_none (by push_cast; linarith)),
        List.filterMap_cons_none (mk5_none (by push_cast; linarith)),
        List.filterMap_nil]
      have hfl : ⌊e * 5⌋ = 0 := Int.floor_eq_iff.mpr ⟨by push_cast; linarith, by push_cast; linarith⟩
      refine ⟨by rw [hk]; rfl, ?_⟩
      intro hlt
      refine ⟨by rw [hfl]; push_cast; linarith, by rw [hfl]; push_cast; linarith, ?_⟩
      simp only [List.getLast?_singleton, Option.some.injEq, ShadowLayer.mk.injEq, hfl,
        Int.toNat_zero, BASE_OPACITY]
      push_cast
      refine ⟨by ring, by ring, by ring, trivial, by ring, trivial⟩
  · obtain ⟨hb1, hb2⟩ := Int.ceil_eq_iff.mp hk
    push_cast at hb1 hb2
    by_cases hfull : (2 : ℝ) ≤ e * 5
    · have heq : e * 5 = 2 := le_antisymm hb2 hfull
      rw [List.filterMap_cons_some (mk5_full (by push_cast; linarith)),
        List.filterMap_cons_some (mk5_full (by push_cast; linarith)),
        List.filterMap_cons_none (mk5_none (by push_cast; linarith)),
        List.filterMap_cons_none (mk5_none (by push_cast; linarith)),
        List.filterMap_cons_none (mk5_none (by push_cast; linarith)),
        List.filterMap_nil]
      refine ⟨by rw [hk]; rfl, ?_⟩
      intro hlt
      exfalso
      have hfl : ⌊e * 5⌋ = 2 := by rw [heq]; norm_num
      rw [hfl] at hlt
      push_cast at hlt
      linarith
    · have hlt1 : e * 5 < 2 := not_le.mp hfull
      rw [List.filterMap_cons_some (mk5_full (by push_cast; linarith)),
        List.filterMap_cons_some (mk5_frac (by push_cast; linarith) (by push_cast; linarith)),
        List.filterMap_cons_none (mk5_none (by push_cast; linarith)),
        List.filterMap_cons_none (mk5_none (by push_cast; linarith)),
        List.filterMap_cons_none (mk5_none (by push_cast; linarith)),
        List.filterMap_nil]
      have hfl : ⌊e * 5⌋ = 1 := Int.floor_eq_iff.mpr ⟨by push_cast; linarith, by push_cast; linarith⟩
      refine ⟨by rw [hk]; rfl, ?_⟩
      intro hlt
      refine ⟨by rw [hfl]; push_cast; linarith, by rw [hfl]; push_cast; linarith, ?_⟩
      simp only [List.getLast?_cons_cons, List.getLast?_singleton, Option.some.injEq,
        ShadowLayer.mk.injEq, hfl, Int.toNat_one, BASE_OPACITY]
      push_cast
      refine ⟨by ring, by ring, by ring, trivial, by ring, trivial⟩
  · obtain ⟨hb1, hb2⟩ := Int.ceil_eq_iff.mp hk
    push_cast at hb1 hb2
    by_cases hfull : (3 : ℝ) ≤ e * 5
    · have heq : e * 5 = 3 := le_antisymm hb2 hfull
      rw [List.filterMap_cons_some (mk5_full (by push_cast; linarith)),
        List.filterMap_cons_some (mk5_full (by push_cast; linarith)),
        List.filterMap_cons_some (mk5_full (by push_cast; linarith)),
        List.filterMap_cons_none (mk5_none (by push_cast; linarith)),
        List.filterMap_cons_none (mk5_none (by push_cast; linarith)),
        List.filterMap_nil]
      refine ⟨by rw [hk]; rfl, ?_⟩
      intro hlt
      exfalso
      have hfl : ⌊e * 5⌋ = 3 := by rw [heq]; norm_num
      rw [hfl] at hlt
      push_cast at hlt
      linarith
    · have hlt1 : e * 5 < 3 := not_le.mp hfull
      rw [List.filterMap_cons_some (mk5_full (by push_cast; linarith)),
        List.filterMap_cons_some (mk5_full (by push_cast; linarith)),
        List.filterMap_cons_some (mk5_frac (by push_cast; linarith) (by push_cast; linarith)),
        List.filterMap_cons_none (mk5_none (by push_cast; linarith)),
        List.filterMap_cons_none (mk5_none (by push_cast; linarith)),
        List.filterMap_nil]
      have hfl : ⌊e * 5⌋ = 2 := Int.floor_eq_iff.mpr ⟨by push_cast; linarith, by push_cast; linarith⟩
      refine ⟨by rw [hk]; rfl, ?_⟩
      intro hlt
      refine ⟨by rw [hfl]; push_cast; linarith, by rw [hfl]; push_cast; linarith, ?_⟩
      simp only [List.getLast?_cons_cons, List.getLast?_singleton, Option.some.injEq,
        ShadowLayer.mk.injEq, hfl, Int.toNat_ofNat, BASE_OPACITY]
      push_cast
      refine ⟨by ring, by ring, by ring, trivial, by ring, trivial⟩
  · obtain ⟨hb1, hb2⟩ := Int.ceil_eq_iff.mp hk
    push_cast at hb1 hb2
    by_cases hfull : (4 : ℝ) ≤ e * 5
    · have heq : e * 5 = 4 := le_antisymm hb2 hfull
      rw [List.filterMap_cons_some (mk5_full (by push_cast; linarith)),
        List.filterMap_cons_some (mk5_full (by push_cast; linarith)),
        List.filterMap_cons_some (mk5_full (by push_cast; linarith)),
        List.filterMap_cons_some (mk5_full (by push_cast; linarith)),
        List.filterMap_cons_none (mk5_none (by push_cast; linarith)),
        List.filterMap_nil]
      refine ⟨by rw [hk]; rfl, ?_⟩
      intro hlt
      exfalso
      have hfl : ⌊e * 5⌋ = 4 := by rw [heq]; norm_num
      rw [hfl] at hlt
      push_cast at hlt
      linarith
    · have hlt1 : e * 5 < 4 := not_le.mp hfull
      rw [List.filterMap_cons_some (mk5_full (by push_cast; linarith)),
        List.filterMap_cons_some (mk5_full (by push_cast; linarith)),
        List.filterMap_cons_some (mk5_full (by push_cast; linarith)),
        List.filterMap_cons_some (mk5_frac (by push_cast; linarith) (by push_cast; linarith)),
        List.filterMap_cons_none (mk5_none (by push_cast; linarith)),
        List.filterMap_nil]
      have hfl : ⌊e * 5⌋ = 3 := Int.floor_eq_iff.mpr ⟨by push_cast; linarith, by push_cast; linarith⟩
      refine ⟨by rw [hk]; rfl, ?_⟩
      intro hlt
      refine ⟨by rw [hfl]; push_cast; linarith, by rw [hfl]; push_cast; linarith, ?_⟩
      simp only [List.getLast?_cons_cons, List.getLast?_singleton, Option.some.injEq,
        ShadowLayer.mk.injEq, hfl, Int.toNat_ofNat, BASE_OPACITY]
      push_cast
      refine ⟨by ring, by ring, by ring, trivial, by ring, trivial⟩
  · obtain ⟨hb1, hb2⟩ := Int.ceil_eq_iff.mp hk
    push_cast at hb1 hb2
    by_cases hfull : (5 : ℝ) ≤ e * 5
    · have heq : e * 5 = 5 := le_antisymm hb2 hfull
      rw [List.filterMap_cons_some (mk5_full (by push_cast; linarith)),
        List.filterMap_cons_some (mk5_full (by push_cast; linarith)),
        List.filterMap_cons_some (mk5_full (by push_cast; linarith)),
        List.filterMap_cons_some (mk5_full (by push_cast; linarith)),
        List.filterMap_cons_some (mk5_full (by push_cast; linarith)),
        List.filterMap_nil]
      refine ⟨by rw [hk]; rfl, ?_⟩
      intro hlt
      exfalso
      have hfl : ⌊e * 5⌋ = 5 := by rw [heq]; norm_num
      rw [hfl] at hlt
      push_cast at hlt
      linarith
    · have hlt1 : e * 5 < 5 := not_le.mp hfull
      rw [List.filterMap_cons_some (mk5_full (by push_cast; linarith)),
        List.filterMap_cons_some (mk5_full (by push_cast; linarith)),
        List.filterMap_cons_some (mk5_full (by push_cast; linarith)),
        List.filterMap_cons_some (mk5_full (by push_cast; linarith)),
        List.filterMap_cons_some (mk5_frac (by push_cast; linarith) (by push_cast; linarith)),
        List.filterMap_nil]
      have hfl : ⌊e * 5⌋ = 4 := Int.floor_eq_iff.mpr ⟨by push_cast; linarith, by push_cast; linarith⟩
      refine ⟨by rw [hk]; rfl, ?_⟩
      intro hlt
      refine ⟨by rw [hfl]; push_cast; linarith, by rw [hfl]; push_cast; linarith, ?_⟩
      simp only [List.getLast?_cons_cons, List.getLast?_singleton, Option.some.injEq,
        ShadowLayer.mk.injEq, hfl, Int.toNat_ofNat, BASE_OPACITY]
      push_cast
      refine ⟨by ring, by ring, by ring, trivial, by ring, trivial⟩

/-- Witness for C3. -/
theorem layer_count_and_boundary_check :
    (synthesize 0.5 30 1 1 false).length = (⌈(0.5 : ℝ) * 5⌉).toNat
    ∧ (((⌊(0.5 : ℝ) * 5⌋ : ℤ) : ℝ) < (0.5 : ℝ) * 5 →
        (0 : ℝ) < (0.5 : ℝ) * 5 - ((⌊(0.5 : ℝ) * 5⌋ : ℤ) : ℝ)
        ∧ (0.5 : ℝ) * 5 - ((⌊(0.5 : ℝ) * 5⌋ : ℤ) : ℝ) < 1
        ∧ (synthesize 0.5 30 1 1 false).getLast? =
          some ⟨2 ^ (⌊(0.5 : ℝ) * 5⌋).toNat * 1 * ratioXFor false 30 *
                  ((0.5 : ℝ) * 5 - ((⌊(0.5 : ℝ) * 5⌋ : ℤ) : ℝ)),
                2 ^ (⌊(0.5 : ℝ) * 5⌋).toNat * 1 * ratioYFor false 30 *
                  ((0.5 : ℝ) * 5 - ((⌊(0.5 : ℝ) * 5⌋ : ℤ) : ℝ)),
                2 ^ (⌊(0.5 : ℝ) * 5⌋).toNat * 1 *
                  ((0.5 : ℝ) * 5 - ((⌊(0.5 : ℝ) * 5⌋ : ℤ) : ℝ)), 0,
                0.075 * ((0.5 : ℝ) * 5 - ((⌊(0.5 : ℝ) * 5⌋ : ℤ) : ℝ)) * 1, false⟩) :=
  layer_count_and_boundary 0.5 30 1 1 false (by norm_num) (by norm_num)

/-- C10 (implicit): with `options.elevation` undefined, `generateShadow`
behaves exactly as with `elevation = 0.3`, and the default result is a
non-empty layer list with a box shadow other than `'none'`. -/
theorem default_elevation_behavior (opts : ShadowOptions)
    (b : Option Bounds) (p : Option Position) (h : opts.elevation = none) :
    generateShadow opts b p = generateShadow { opts with elevation := some 0.3 } b p
    ∧ (generateShadow opts b p).layers ≠ []
    ∧ (generateShadow opts b p).boxShadow ≠ "none" := by
  have hlay : (generateShadow opts b p).layers ≠ [] := by
    simp only [generateShadow, h, Option.getD_none, applyColorToLayers]
    simp only [ne_eq, List.map_eq_nil_iff]
    exact synthesize_third_ne_nil _ _ _ _
  refine ⟨by simp [generateShadow, h], hlay, ?_⟩
  obtain ⟨l, ls, hcons⟩ := List.exists_cons_of_ne_nil hlay
  show layersToCSS (generateShadow opts b p).layers ≠ "none"
  rw [hcons]
  exact layersToCSS_cons_ne_none l ls

/-- Witness for C10. -/
theorem default_elevation_behavior_check :
    generateShadow ⟨none, none, none, none, none, none, none, none⟩ none none =
      generateShadow ⟨some 0.3, none, none, none, none, none, none, none⟩ none none
    ∧ (generateShadow ⟨none, none, none, none, none, none, none, none⟩ none none).layers ≠ []
    ∧ (generateShadow ⟨none, none, none, none, none, none, none, none⟩ none none).boxShadow
        ≠ "none" :=
  default_elevation_behavior ⟨none, none, none, none, none, none, none, none⟩ none none rfl

/-- Counterexample to C8 as stated.  The light-mode sentence of the claim
gives the derived saturation as `s * 0.6` with no floor, but the code
computes `Math.max(0, s * 0.6)`.  The two differ on backgrounds whose
out-of-range `rgb(...)` components drive the parsed saturation negative:
`"rgb(600, 300, 600)"` parses to `(h, s, l) = (300, -77, 176)`, where the
code returns saturation `0` while the claimed formula gives `-77 * 0.6`. -/
theorem shadow_color_light_saturation_cx :
    parseColor "rgb(600, 300, 600)" = some ⟨300, -77, 176⟩
    ∧ calculateShadowColor "rgb(600, 300, 600)" false = .hsl 300 0 88
    ∧ calculateShadowColor "rgb(600, 300, 600)" false ≠
        .hsl 300 ((-77 : ℚ) * 0.6) (qMax 10 ((176 : ℚ) * 0.5)) := by
  have h1 : parseColor "rgb(600, 300, 600)" =
      some (rgbToHSL ⟨((600 : ℕ) : ℚ), ((300 : ℕ) : ℚ), ((600 : ℕ) : ℚ)⟩) := rfl
  have h2 : rgbToHSL ⟨((600 : ℕ) : ℚ), ((300 : ℕ) : ℚ), ((600 : ℕ) : ℚ)⟩ =
      ⟨300, -77, 176⟩ := by
    norm_num [rgbToHSL, qMax, qMin, jsRound]
  have hparse : parseColor "rgb(600, 300, 600)" = some ⟨300, -77, 176⟩ := by
    rw [h1, h2]
  have hval : calculateShadowColor "rgb(600, 300, 600)" false = .hsl 300 0 88 := by
    rw [calculateShadowColor, hparse]
    norm_num [qMax]
  refine ⟨hparse, hval, ?_⟩
  rw [hval]
  simp only [ne_eq, CssColor.hsl.injEq]
  norm_num

/-- C8 amended: `calculateShadowColor` on an unparseable background returns
translucent white in dark mode and the fixed dark neutral otherwise; on a
parsed `(h, s, l)` it returns `hsl(h, max(0, s - 20), min(100, l + 30))` in
dark mode and `hsl(h, max(0, s * 0.6), max(10, l * 0.5))` in light mode —
the light-mode saturation is floored at 0, like the dark-mode one (the only
change the counterexample forces). -/
theorem shadow_color_derivation (bg : String) (dark : Bool) :
    (parseColor bg = none →
      calculateShadowColor bg dark =
        if dark then .hslA 0 0 100 0.1 else .hsl 220 3 15)
    ∧ (∀ c : HSL, parseColor bg = some c →
      calculateShadowColor bg dark =
        if dark then .hsl c.h (qMax 0 (c.s - 20)) (qMin 100 (c.l + 30))
        else .hsl c.h (qMax 0 (c.s * 0.6)) (qMax 10 (c.l * 0.5))) := by
  constructor
  · intro h
    rw [calculateShadowColor, h]
  · intro c h
    rw [calculateShadowColor, h]

/-- Witness for the amended C8. -/
theorem shadow_color_derivation_check :
    calculateShadowColor "nonsense" true = .hslA 0 0 100 0.1
    ∧ calculateShadowColor "hsl(200, 50%, 40%)" false =
        .hsl 200 (qMax 0 (50 * 0.6)) (qMax 10 (40 * 0.5)) := by
  constructor
  · simpa using (shadow_color_derivation "nonsense" true).1 (by decide)
  · simpa using
      (shadow_color_derivation "hsl(200, 50%, 40%)" false).2 ⟨200, 50, 40⟩ (by decide)

end Lifted
